import Mathlib

/-!
Verification of the streaming-event client and local session cache of the
AlterEcho front-end (Elytride/Nulltale): shallow embedding of
src/lib/api.js, src/lib/storage.js and the audio sequencer of
src/components/layout/ChatInterface.jsx, with theorems settling the
frozen claims about the natural-language specification.
-/

namespace Nulltale

/-! ## Streaming event parser

Embedding of the parsing loop shared by refreshAIMemory and
streamVoiceCall (api.js lines 441-487 and 534-569):

    buffer += decoder.decode(value, { stream: true });
    const lines = buffer.split('\n');
    buffer = lines.pop() || '';
    for (const line of lines) {
        if (line.startsWith('data: ')) {
            try { const data = JSON.parse(line.slice(6).trim()); ... dispatch ... }
            catch (e) { console.warn('Failed to parse SSE data:', line, e); }
        }
    }

Strings are modelled as lists of characters.  The JSON parse together
with the dispatch of a parsed record is abstracted as a function
parse : List Char -> Option E (returning none exactly when JSON.parse
throws or when no record is dispatched for the line), so every theorem
below holds for the actual JSON parser as a special case. -/

/-- JS composite `lines = buffer.split('\n'); buffer = lines.pop() || ''`:
returns the complete (newline-terminated) lines together with the trailing
incomplete fragment that becomes the new buffer. -/
def splitComplete : List Char → List (List Char) × List Char
  | [] => ([], [])
  | c :: cs =>
    if c = '\n' then
      ([] :: (splitComplete cs).1, (splitComplete cs).2)
    else
      match splitComplete cs with
      | ([], rest) => ([], c :: rest)
      | (l :: ls, rest) => ((c :: l) :: ls, rest)

/-- Whitespace characters removed by JS String.prototype.trim (the ones
relevant to this protocol). -/
def isJsSpace (c : Char) : Bool :=
  c == ' ' || c == '\t' || c == '\n' || c == '\r'

/-- JS String.prototype.trim on a character list. -/
def jsTrim (s : List Char) : List Char :=
  ((s.dropWhile isJsSpace).reverse.dropWhile isJsSpace).reverse

/-- The SSE line marker `data: ` (6 characters) checked by line.startsWith. -/
def dataMarker : List Char := "data: ".toList

/-- Per-line processing of the loop body: lines not starting with the
marker are skipped; otherwise the marker is stripped (line.slice(6)),
the rest trimmed and handed to the JSON parse/dispatch. -/
def processLine {E : Type} (parse : List Char → Option E) (line : List Char) :
    Option E :=
  if dataMarker.isPrefixOf line then parse (jsTrim (line.drop 6)) else none

/-- One iteration of `while (true)` for one received chunk: append the
decoded text to the buffer, split off the complete lines, keep the trailing
fragment as the new buffer, and dispatch each complete line in order. -/
def feedChunk {E : Type} (parse : List Char → Option E)
    (buf chunk : List Char) : List Char × List E :=
  let r := splitComplete (buf ++ chunk)
  (r.2, r.1.filterMap (processLine parse))

/-- Run the whole read loop over a list of chunks, starting from a given
buffer; returns the concatenation of all dispatched records in order.
Whatever remains in the buffer when the transport signals done is
discarded, as in the source. -/
def feedAll {E : Type} (parse : List Char → Option E)
    (buf : List Char) : List (List Char) → List E
  | [] => []
  | c :: cs =>
    let r := feedChunk parse buf c
    r.2 ++ feedAll parse r.1 cs

theorem splitComplete_cons_nl (cs : List Char) :
    splitComplete ('\n' :: cs) =
      ([] :: (splitComplete cs).1, (splitComplete cs).2) := by
  simp [splitComplete]

theorem splitComplete_cons_ne (c : Char) (cs : List Char) (h : ¬ c = '\n') :
    splitComplete (c :: cs) =
      (match splitComplete cs with
       | ([], rest) => ([], c :: rest)
       | (l :: ls, rest) => ((c :: l) :: ls, rest)) := by
  simp [splitComplete, h]

/-- Buffering is a homomorphism: splitting a concatenation equals splitting
the first part, then splitting its remainder glued to the second part. -/
theorem splitComplete_append (a b : List Char) :
    splitComplete (a ++ b) =
      ((splitComplete a).1 ++ (splitComplete ((splitComplete a).2 ++ b)).1,
       (splitComplete ((splitComplete a).2 ++ b)).2) := by
  induction a with
  | nil => simp [splitComplete]
  | cons c a ih =>
    by_cases hc : c = '\n'
    · subst hc
      rw [List.cons_append, splitComplete_cons_nl, splitComplete_cons_nl, ih]
      simp
    · rw [List.cons_append, splitComplete_cons_ne c _ hc,
        splitComplete_cons_ne c _ hc, ih]
      rcases h1 : splitComplete a with ⟨l1, r1⟩
      rcases l1 with _ | ⟨l, ls⟩
      · simp only []
        rcases h2 : splitComplete (r1 ++ b) with ⟨l2, r2⟩
        rcases l2 with _ | ⟨m, ms⟩
        · simp [splitComplete_cons_ne c _ hc, h2]
        · simp [splitComplete_cons_ne c _ hc, h2]
      · simp [h1]

theorem feedAll_merge {E : Type} (parse : List Char → Option E)
    (buf c₁ c₂ : List Char) (cs : List (List Char)) :
    feedAll parse buf (c₁ :: c₂ :: cs) = feedAll parse buf ((c₁ ++ c₂) :: cs) := by
  simp only [feedAll, feedChunk]
  rw [show buf ++ (c₁ ++ c₂) = buf ++ c₁ ++ c₂ from (List.append_assoc buf c₁ c₂).symm,
    splitComplete_append (buf ++ c₁) c₂]
  simp [List.filterMap_append, List.append_assoc]

theorem feedAll_join {E : Type} (parse : List Char → Option E) :
    ∀ (cs : List (List Char)) (buf c : List Char),
      feedAll parse buf (c :: cs) = feedAll parse buf [c ++ cs.flatten] := by
  intro cs
  induction cs with
  | nil => intro buf c; simp
  | cons c₂ cs ih =>
    intro buf c
    rw [feedAll_merge, ih]
    simp [List.append_assoc]

/-- C1. Stream-parser invariance under fragmentation: feeding any list of
chunks one at a time through the parsing loop of streamVoiceCall /
refreshAIMemory dispatches exactly the same sequence of parsed records, in
the same order, as feeding their concatenation as one single chunk. -/
theorem stream_fragmentation_invariance {E : Type}
    (parse : List Char → Option E) (chunks : List (List Char)) :
    feedAll parse [] chunks = feedAll parse [] [chunks.flatten] := by
  cases chunks with
  | nil => simp [feedAll, feedChunk, splitComplete]
  | cons c cs => exact feedAll_join parse cs [] c

theorem splitComplete_line (l : List Char) (h : '\n' ∉ l) (rest : List Char) :
    splitComplete (l ++ '\n' :: rest) =
      (l :: (splitComplete rest).1, (splitComplete rest).2) := by
  induction l with
  | nil => simp [splitComplete_cons_nl]
  | cons c l ih =>
    have hc : ¬ c = '\n' := fun hc => h (hc ▸ List.mem_cons_self c l)
    have hl : '\n' ∉ l := fun hm => h (List.mem_cons_of_mem c hm)
    rw [List.cons_append, splitComplete_cons_ne c _ hc, ih hl]

theorem dataMarker_length : dataMarker.length = 6 := by decide

theorem processLine_marker {E : Type} (parse : List Char → Option E)
    (p : List Char) :
    processLine parse (dataMarker ++ p) = parse (jsTrim p) := by
  have hpre : dataMarker.isPrefixOf (dataMarker ++ p) = true := by
    rw [ List.isPrefixOf_iff_prefix]
    exact List.prefix_append dataMarker p
  rw [processLine, if_pos hpre, ← dataMarker_length, List.drop_left]

/-- C7. Malformed-line tolerance: in a stream that contains a line whose
payload fails to parse as JSON between two well-formed event lines, the
malformed line is discarded, both surrounding events are still dispatched
in order, and the stream is not aborted. -/
theorem malformed_line_tolerance {E : Type} (parse : List Char → Option E)
    (p₁ p₂ p₃ : List Char) (e₁ e₃ : E)
    (h₁n : '\n' ∉ p₁) (h₂n : '\n' ∉ p₂) (h₃n : '\n' ∉ p₃)
    (h₁ : parse (jsTrim p₁) = some e₁)
    (h₂ : parse (jsTrim p₂) = none)
    (h₃ : parse (jsTrim p₃) = some e₃) :
    feedAll parse []
      [(dataMarker ++ p₁) ++ '\n' ::
        ((dataMarker ++ p₂) ++ '\n' :: ((dataMarker ++ p₃) ++ ['\n']))] =
      [e₁, e₃] := by
  have hm : '\n' ∉ dataMarker := by decide
  have h₁' : '\n' ∉ dataMarker ++ p₁ := by
    intro hx; rcases List.mem_append.1 hx with hx | hx
    · exact hm hx
    · exact h₁n hx
  have h₂' : '\n' ∉ dataMarker ++ p₂ := by
    intro hx; rcases List.mem_append.1 hx with hx | hx
    · exact hm hx
    · exact h₂n hx
  have h₃' : '\n' ∉ dataMarker ++ p₃ := by
    intro hx; rcases List.mem_append.1 hx with hx | hx
    · exact hm hx
    · exact h₃n hx
  have hstream :
      splitComplete ((dataMarker ++ p₁) ++ '\n' ::
          ((dataMarker ++ p₂) ++ '\n' :: ((dataMarker ++ p₃) ++ ['\n']))) =
        ([dataMarker ++ p₁, dataMarker ++ p₂, dataMarker ++ p₃], []) := by
    rw [splitComplete_line _ h₁', splitComplete_line _ h₂']
    have : (dataMarker ++ p₃) ++ ['\n'] = (dataMarker ++ p₃) ++ '\n' :: [] := rfl
    rw [this, splitComplete_line _ h₃']
    simp [splitComplete]
  simp only [feedAll, feedChunk, List.nil_append, hstream]
  simp [List.filterMap, processLine_marker, h₁, h₂, h₃]

/-- Sample dispatcher used to witness the malformed-line-tolerance theorem:
payload "1" parses to record 1, payload "3" to record 3, all else fails. -/
def sampleParse (s : List Char) : Option Nat :=
  if s = ['1'] then some 1 else if s = ['3'] then some 3 else none

theorem malformed_line_tolerance_witness :
    feedAll sampleParse []
      [(dataMarker ++ ['1']) ++ '\n' ::
        ((dataMarker ++ ['x']) ++ '\n' :: ((dataMarker ++ ['3']) ++ ['\n']))] =
      [1, 3] :=
  malformed_line_tolerance sampleParse ['1'] ['x'] ['3'] 1 3
    (by decide) (by decide) (by decide) (by decide) (by decide) (by decide)

/-! ## Local store (storage.js)

The IndexedDB tables are modelled as lists inside one Store record; Dexie
where-clauses become list filters, get-by-key becomes find?, and put
becomes an in-place replacement of the row with the matching key.  JS
plain objects with string values (settings, embeddings) are modelled as
association lists observed through key lookup. -/

/-- A JS plain object with string values. -/
abbrev Obj := List (String × String)

/-- Property lookup on a JS object. -/
def objGet (o : Obj) (k : String) : Option String :=
  (o.find? (fun p => p.1 == k)).map (fun p => p.2)

/-- JS object spread { ...current, ...updates }: a key present in the
update wins, every other key keeps the current value. -/
def objMerge (current updates : Obj) : Obj := updates ++ current

/-- Session row (storage.js createSession, lines 63-84). -/
structure Session where
  id : String
  name : String
  created_at : String
  preview : String
  subject : Option String
  wavespeed_voice_id : Option String
  voice_created_at : Option String
  voice_last_used_at : Option String
deriving DecidableEq

/-- Chat message as stored in the per-session message list. -/
structure Msg where
  id : String
  role : String
  content : String
  images : List String
deriving DecidableEq

/-- Upload row (storage.js addUpload, lines 143-166). -/
structure Upload where
  session_id : String
  type : String
  file_id : String
  original_name : String
  saved_as : String
  detected_type : Option String
  participants : List String
  subject : Option String
  data : List Nat
  mime_type : String
  size : Nat
  created_at : String
deriving DecidableEq

/-- Preprocessed-artifact row (storage.js savePreprocessed, lines 214-222). -/
structure PreRec where
  session_id : String
  style_summary : String
  embeddings : Obj
  updated_at : String
deriving DecidableEq

/-- Image row (storage.js saveImage, lines 260-267). -/
structure Image where
  session_id : String
  image_id : String
  data : List Nat
  mime_type : String
  source : String
  created_at : String
deriving DecidableEq

/-- The whole AlterEchoDBv2 database (storage.js lines 14-23).  The
messages and preprocessed tables are keyed by a unique session_id. -/
structure Store where
  sessions : List Session
  messages : List (String × List Msg)
  uploads : List Upload
  preprocessed : List PreRec
  images : List Image
  secrets : List (String × String)
  settings : Option Obj
deriving DecidableEq

/-- The database before any write at all. -/
def emptyStore : Store :=
  { sessions := [], messages := [], uploads := [], preprocessed := [],
    images := [], secrets := [], settings := none }

/-- DEFAULT_SETTINGS (storage.js lines 31-36). -/
def DEFAULT_SETTINGS : Obj :=
  [("chatbot_model", "gemini-flash-latest"),
   ("training_model", "gemini-3-flash-preview"),
   ("embedding_model", "gemini-embedding-001"),
   ("image_model", "gemini-2.5-flash-image")]

/-- getSettings (storage.js lines 39-42): the stored row if present,
otherwise a copy of the defaults. -/
def getSettings (st : Store) : Obj :=
  match st.settings with
  | some o => o
  | none => DEFAULT_SETTINGS

/-- saveSettings (storage.js lines 44-49): merge the partial update over
the current settings and persist the merged object. -/
def saveSettings (st : Store) (newSettings : Obj) : Store × Obj :=
  let merged := objMerge (getSettings st) newSettings
  ({ st with settings := some merged }, merged)

/-- getSession (storage.js lines 59-61). -/
def getSession (st : Store) (sessionId : String) : Option Session :=
  st.sessions.find? (fun s => s.id == sessionId)

/-- The partial-fields argument of updateSession; a field that is none is
absent from the JS updates object. -/
structure SessionUpdates where
  name : Option String := none
  preview : Option String := none
  subject : Option (Option String) := none
  wavespeed_voice_id : Option (Option String) := none
  voice_created_at : Option (Option String) := none
  voice_last_used_at : Option (Option String) := none

/-- JS spread { ...session, ...updates }. -/
def applySessionUpdates (s : Session) (u : SessionUpdates) : Session :=
  { s with
      name := u.name.getD s.name,
      preview := u.preview.getD s.preview,
      subject := u.subject.getD s.subject,
      wavespeed_voice_id := u.wavespeed_voice_id.getD s.wavespeed_voice_id,
      voice_created_at := u.voice_created_at.getD s.voice_created_at,
      voice_last_used_at := u.voice_last_used_at.getD s.voice_last_used_at }

/-- updateSession (storage.js lines 86-93): null when the id is unknown,
otherwise put the merged record back under the same primary key. -/
def updateSession (st : Store) (sessionId : String) (u : SessionUpdates) :
    Store × Option Session :=
  match getSession st sessionId with
  | none => (st, none)
  | some s =>
    let updated := applySessionUpdates s u
    let rows := st.sessions.map (fun t => if t.id == sessionId then updated else t)
    ({ st with sessions := rows }, some updated)

/-- deleteSession (storage.js lines 95-103): remove the session row, its
message list, its preprocessed artifact, and every upload and image with
this session_id; always resolves with success. -/
def deleteSession (st : Store) (sessionId : String) : Store × Bool :=
  ({ st with
      sessions := st.sessions.filter (fun s => !(s.id == sessionId)),
      messages := st.messages.filter (fun m => !(m.1 == sessionId)),
      preprocessed := st.preprocessed.filter (fun p => !(p.session_id == sessionId)),
      uploads := st.uploads.filter (fun u => !(u.session_id == sessionId)),
      images := st.images.filter (fun i => !(i.session_id == sessionId)) },
   true)

/-- getMessages (storage.js lines 106-109): the stored list, or empty when
the row is absent. -/
def getMessages (st : Store) (sessionId : String) : List Msg :=
  match st.messages.find? (fun m => m.1 == sessionId) with
  | some m => m.2
  | none => []

/-- getUploads (storage.js lines 133-141): all uploads of the session,
optionally restricted to one file type. -/
def getUploads (st : Store) (sessionId : String) (fileType : Option String) :
    List Upload :=
  let uploads := st.uploads.filter (fun u => u.session_id == sessionId)
  match fileType with
  | some t => uploads.filter (fun u => u.type == t)
  | none => uploads

/-- getUpload (storage.js lines 168-174). -/
def getUpload (st : Store) (sessionId fileId : String) : Option Upload :=
  (st.uploads.filter (fun u => u.session_id == sessionId)).find?
    (fun u => u.file_id == fileId)

/-- The partial-fields argument of updateUpload. -/
structure UploadUpdates where
  original_name : Option String := none
  detected_type : Option (Option String) := none
  subject : Option (Option String) := none

/-- JS spread { ...upload, ...updates }. -/
def applyUploadUpdates (u : Upload) (p : UploadUpdates) : Upload :=
  { u with
      original_name := p.original_name.getD u.original_name,
      detected_type := p.detected_type.getD u.detected_type,
      subject := p.subject.getD u.subject }

/-- updateUpload (storage.js lines 176-183): null when the (session, file)
pair is unknown, otherwise put the merged row back. -/
def updateUpload (st : Store) (sessionId fileId : String) (p : UploadUpdates) :
    Store × Option Upload :=
  match getUpload st sessionId fileId with
  | none => (st, none)
  | some up =>
    let updated := applyUploadUpdates up p
    let rows := st.uploads.map
      (fun u => if u.session_id == sessionId && u.file_id == fileId then updated else u)
    ({ st with uploads := rows }, some updated)

/-- deleteUpload (storage.js lines 185-191): delete by session and file id
(the fileType argument is accepted but not used by the query, as in the
source); always resolves with success. -/
def deleteUpload (st : Store) (sessionId : String) (fileType : String)
    (fileId : String) : Store × Bool :=
  let rows := st.uploads.filter
    (fun u => !(u.session_id == sessionId && u.file_id == fileId))
  ({ st with uploads := rows }, true)

/-- getPreprocessed (storage.js lines 210-212). -/
def getPreprocessed (st : Store) (sessionId : String) : Option PreRec :=
  st.preprocessed.find? (fun p => p.session_id == sessionId)

/-- getImage (storage.js lines 230-236). -/
def getImage (st : Store) (sessionId imageId : String) : Option Image :=
  st.images.find? (fun i => i.session_id == sessionId && i.image_id == imageId)

/-- getSecret (storage.js lines 318-321). -/
def getSecret (st : Store) (key : String) : Option String :=
  (st.secrets.find? (fun p => p.1 == key)).map (fun p => p.2)

/-- deleteSecret (storage.js lines 328-331): always resolves with success. -/
def deleteSecret (st : Store) (key : String) : Store × Bool :=
  ({ st with secrets := st.secrets.filter (fun p => !(p.1 == key)) }, true)

theorem find?_filter_none {α : Type} (l : List α) (p q : α → Bool)
    (h : ∀ a, p a = true → q a = false) : (l.filter q).find? p = none := by
  induction l with
  | nil => rfl
  | cons a l ih =>
    by_cases hq : q a = true
    · have hp : p a = false := by
        cases hpa : p a
        · rfl
        · rw [h a hpa] at hq; exact absurd hq (by simp)
      simp [List.filter_cons, hq, List.find?_cons, hp, ih]
    · simp at hq
      simp [List.filter_cons, hq, ih]

theorem find?_filter_frame {α : Type} (l : List α) (p q : α → Bool)
    (h : ∀ a, p a = true → q a = true) : (l.filter q).find? p = l.find? p := by
  induction l with
  | nil => rfl
  | cons a l ih =>
    by_cases hq : q a = true
    · cases hp : p a
      · simp [List.filter_cons, hq, List.find?_cons, hp, ih]
      · simp [List.filter_cons, hq, List.find?_cons, hp]
    · have hp : p a = false := by
        cases hpa : p a
        · rfl
        · exact absurd (h a hpa) hq
      simp at hq
      simp [List.filter_cons, hq, List.find?_cons, hp, ih]

theorem filter_filter_none {α : Type} (l : List α) (p q : α → Bool)
    (h : ∀ a, p a = true → q a = false) : (l.filter q).filter p = [] := by
  induction l with
  | nil => rfl
  | cons a l ih =>
    by_cases hq : q a = true
    · have hp : p a = false := by
        cases hpa : p a
        · rfl
        · rw [h a hpa] at hq; exact absurd hq (by simp)
      simp [List.filter_cons, hq, hp, ih]
    · simp at hq
      simp [List.filter_cons, hq, ih]

theorem filter_filter_frame {α : Type} (l : List α) (p q : α → Bool)
    (h : ∀ a, p a = true → q a = true) : (l.filter q).filter p = l.filter p := by
  induction l with
  | nil => rfl
  | cons a l ih =>
    by_cases hq : q a = true
    · simp [List.filter_cons, hq, ih]
    · have hp : p a = false := by
        cases hpa : p a
        · rfl
        · exact absurd (h a hpa) hq
      simp at hq
      simp [List.filter_cons, hq, hp, ih]

/-- C5. Session cascade delete with frame condition: after deleteSession S,
the messages, uploads, images and preprocessed artifact of S are all
empty/absent (and S itself is gone), while every entity belonging to any
other session is unchanged. -/
theorem session_cascade_delete (st : Store) (S S' : String) (hne : S' ≠ S) :
    getSession (deleteSession st S).1 S = none ∧
    getMessages (deleteSession st S).1 S = [] ∧
    (∀ t, getUploads (deleteSession st S).1 S t = []) ∧
    (∀ i, getImage (deleteSession st S).1 S i = none) ∧
    getPreprocessed (deleteSession st S).1 S = none ∧
    getSession (deleteSession st S).1 S' = getSession st S' ∧
    getMessages (deleteSession st S).1 S' = getMessages st S' ∧
    (∀ t, getUploads (deleteSession st S).1 S' t = getUploads st S' t) ∧
    (∀ i, getImage (deleteSession st S).1 S' i = getImage st S' i) ∧
    getPreprocessed (deleteSession st S).1 S' = getPreprocessed st S' := by
  have hbeq : (S' == S) = false := by
    cases hb : S' == S
    · rfl
    · exact absurd (by simpa using hb) hne
  refine ⟨?_, ?_, ?_, ?_, ?_, ?_, ?_, ?_, ?_, ?_⟩
  · rw [getSession, deleteSession]
    exact find?_filter_none _ _ _ (fun a ha => by simp_all)
  · rw [getMessages, deleteSession]
    rw [find?_filter_none _ _ _ (fun a ha => by simp_all)]
  · intro t
    have hz : (st.uploads.filter (fun u => !(u.session_id == S))).filter
        (fun u => u.session_id == S) = [] :=
      filter_filter_none _ _ _ (fun a ha => by simp_all)
    cases t with
    | none => simp only [getUploads, deleteSession, hz]
    | some t => simp only [getUploads, deleteSession, hz]; rfl
  · intro i
    rw [getImage, deleteSession]
    exact find?_filter_none _ _ _ (fun a ha => by
      simp only [Bool.and_eq_true, beq_iff_eq] at ha
      simp [ha.1])
  · rw [getPreprocessed, deleteSession]
    exact find?_filter_none _ _ _ (fun a ha => by simp_all)
  · rw [getSession, getSession, deleteSession]
    exact find?_filter_frame _ _ _ (fun a ha => by
      simp only [beq_iff_eq] at ha
      simp [ha, hne])
  · rw [getMessages, getMessages, deleteSession]
    rw [find?_filter_frame _ _ _ (fun a ha => by
      simp only [beq_iff_eq] at ha
      simp [ha, hne])]
  · intro t
    have hz : (st.uploads.filter (fun u => !(u.session_id == S))).filter
        (fun u => u.session_id == S') = st.uploads.filter (fun u => u.session_id == S') :=
      filter_filter_frame _ _ _ (fun a ha => by
        simp only [beq_iff_eq] at ha
        simp [ha, hne])
    cases t with
    | none => simp only [getUploads, deleteSession, hz]
    | some t => simp only [getUploads, deleteSession, hz]
  · intro i
    rw [getImage, getImage, deleteSession]
    exact find?_filter_frame _ _ _ (fun a ha => by
      simp only [Bool.and_eq_true, beq_iff_eq] at ha
      simp [ha.1, hne])
  · rw [getPreprocessed, getPreprocessed, deleteSession]
    exact find?_filter_frame _ _ _ (fun a ha => by
      simp only [beq_iff_eq] at ha
      simp [ha, hne])

/-! Concrete store used to witness the store theorems: two sessions with
one upload, one image and one preprocessed artifact each. -/

def sessA : Session :=
  { id := "a", name := "A", created_at := "t0", preview := "No messages yet.",
    subject := none, wavespeed_voice_id := none, voice_created_at := none,
    voice_last_used_at := none }

def sessB : Session := { sessA with id := "b", name := "B" }

def upA : Upload :=
  { session_id := "a", type := "text", file_id := "f1", original_name := "x.txt",
    saved_as := "f1.txt", detected_type := none, participants := [],
    subject := none, data := [], mime_type := "text/plain", size := 0,
    created_at := "t0" }

def upB : Upload := { upA with session_id := "b", file_id := "f2" }

def imgA : Image :=
  { session_id := "a", image_id := "i1", data := [], mime_type := "image/png",
    source := "user", created_at := "t0" }

def imgB : Image := { imgA with session_id := "b", image_id := "i2" }

def preA : PreRec :=
  { session_id := "a", style_summary := "s", embeddings := [("v", "1")],
    updated_at := "t0" }

def preB : PreRec := { preA with session_id := "b" }

def stWit : Store :=
  { sessions := [sessA, sessB], messages := [("a", []), ("b", [])],
    uploads := [upA, upB], preprocessed := [preA, preB],
    images := [imgA, imgB], secrets := [("k", "v")], settings := none }

theorem session_cascade_delete_witness :
    getMessages (deleteSession stWit "a").1 "a" = [] ∧
    getUploads (deleteSession stWit "a").1 "a" none = [] ∧
    getImage (deleteSession stWit "a").1 "a" "i1" = none ∧
    getPreprocessed (deleteSession stWit "a").1 "a" = none ∧
    getPreprocessed (deleteSession stWit "a").1 "b" = getPreprocessed stWit "b" ∧
    getImage (deleteSession stWit "a").1 "b" "i2" = getImage stWit "b" "i2" := by
  have h := session_cascade_delete stWit "a" "b" (by decide)
  exact ⟨h.2.1, h.2.2.1 none, h.2.2.2.1 "i1", h.2.2.2.2.1,
    h.2.2.2.2.2.2.2.2.2, h.2.2.2.2.2.2.2.2.1 "i2"⟩

theorem objGet_merge (c n : Obj) (k : String) :
    objGet (objMerge c n) k =
      (match objGet n k with
       | some v => some v
       | none => objGet c k) := by
  induction n with
  | nil => simp [objGet, objMerge]
  | cons a n ih =>
    by_cases ha : a.1 == k
    · simp [objGet, objMerge, List.find?_cons, ha]
    · have ha' : (a.1 == k) = false := by simpa using ha
      simp only [objGet, objMerge, List.cons_append, List.find?_cons, ha']
      exact ih

/-- C8. Settings defaults and merge semantics: getSettings on a store never
written returns the documented defaults, and after saveSettings(partial)
every key present in the partial has its new value while every other key
retains its previous value. -/
theorem settings_defaults_and_merge (st : Store) (newSettings : Obj) (k : String) :
    getSettings emptyStore = DEFAULT_SETTINGS ∧
    objGet (getSettings (saveSettings st newSettings).1) k =
      (match objGet newSettings k with
       | some v => some v
       | none => objGet (getSettings st) k) := by
  refine ⟨rfl, ?_⟩
  have h1 : getSettings (saveSettings st newSettings).1 =
      objMerge (getSettings st) newSettings := by
    simp [saveSettings, getSettings]
  rw [h1, objGet_merge]

/-! ## Session preview update (api.js sendMessage, lines 319-326) -/

/-- The preview string computed at the end of sendMessage:

    const previewText = result.ai_message?.content || 'No preview';
    preview: previewText.slice(0, 50) + (previewText.length > 50 ? '...' : '')

The optional argument is none when the response has no ai_message (or it
has no content); the JS || also replaces an empty string, which is falsy. -/
def computePreview (aiMessageContent : Option String) : String :=
  let previewText :=
    match aiMessageContent with
    | some s => if s = "" then "No preview" else s
    | none => "No preview"
  previewText.take 50 ++ (if previewText.length > 50 then "..." else "")

/-- The Storage.updateSession call that ends a successful sendMessage. -/
def sendMessagePreviewStep (st : Store) (sessionId : String)
    (aiMessageContent : Option String) : Store × Option Session :=
  updateSession st sessionId { preview := some (computePreview aiMessageContent) }

theorem applySessionUpdates_id (s : Session) (u : SessionUpdates) :
    (applySessionUpdates s u).id = s.id := rfl

theorem find?_cons_true {α : Type} (p : α → Bool) (a : α) (l : List α)
    (h : p a = true) : (a :: l).find? p = some a := by
  simp [List.find?, h]

theorem find?_cons_false {α : Type} (p : α → Bool) (a : α) (l : List α)
    (h : p a = false) : (a :: l).find? p = l.find? p := by
  simp [List.find?, h]

theorem find?_map_replace (l : List Session) (sid : String) (u : SessionUpdates)
    (s : Session) (hfind : l.find? (fun t => t.id == sid) = some s) :
    (l.map (fun t => if t.id == sid then applySessionUpdates s u else t)).find?
      (fun t => t.id == sid) = some (applySessionUpdates s u) := by
  induction l with
  | nil => simp at hfind
  | cons a l ih =>
    cases ha : a.id == sid with
    | true =>
      have has : a = s := by
        have h := hfind
        rw [find?_cons_true (fun (t : Session) => t.id == sid) a l ha] at h
        exact Option.some.inj h
      subst has
      have hid : ((applySessionUpdates a u).id == sid) = true := by
        rw [applySessionUpdates_id]; exact ha
      rw [List.map_cons, if_pos ha]
      exact find?_cons_true (fun (t : Session) => t.id == sid) _ _ hid
    | false =>
      rw [find?_cons_false (fun (t : Session) => t.id == sid) a l ha] at hfind
      rw [List.map_cons, if_neg (by simp [ha]),
        find?_cons_false (fun (t : Session) => t.id == sid) _ _ ha]
      exact ih hfind

theorem getSession_updateSession (st : Store) (sid : String) (u : SessionUpdates)
    (s : Session) (hs : getSession st sid = some s) :
    getSession (updateSession st sid u).1 sid = some (applySessionUpdates s u) := by
  rw [updateSession, hs]
  exact find?_map_replace st.sessions sid u s hs

set_option maxRecDepth 8192 in
/-- C9 (amended). After a successful sendMessage whose response carries an
ai_message with non-empty content, the session preview is the first 50
characters of that content with an ellipsis exactly when it is longer than
50 characters; when the ai_message or its content is absent or empty, the
preview is the fallback string "No preview". -/
theorem session_preview_update_amended (st : Store) (sid : String) (s : Session)
    (c : Option String) (hs : getSession st sid = some s) :
    (getSession (sendMessagePreviewStep st sid c).1 sid).map Session.preview =
      some (computePreview c) ∧
    (∀ v, c = some v → v ≠ "" →
      computePreview c = v.take 50 ++ (if v.length > 50 then "..." else "")) ∧
    (c = some "" ∨ c = none → computePreview c = "No preview") := by
  refine ⟨?_, ?_, ?_⟩
  · rw [sendMessagePreviewStep, getSession_updateSession st sid _ s hs]
    rfl
  · rintro v rfl hv
    simp [computePreview, hv]
  · rintro (rfl | rfl) <;> decide

set_option maxRecDepth 8192 in
theorem session_preview_update_amended_witness :
    (getSession (sendMessagePreviewStep stWit "a" (some "hello")).1 "a").map
      Session.preview = some (computePreview (some "hello")) ∧
    computePreview (some "hello") = "hello" :=
  ⟨(session_preview_update_amended stWit "a" sessA (some "hello") (by decide)).1,
   by decide⟩

set_option maxRecDepth 8192 in
/-- C9 counterexample: a successful sendMessage whose assistant reply has
empty content sets the preview to "No preview", not to the first 50
characters of that content (the empty string), because the JS || treats
the empty string as falsy. -/
theorem session_preview_update_counterexample :
    (getSession (sendMessagePreviewStep stWit "a" (some "")).1 "a").map
      Session.preview = some "No preview" ∧
    ("No preview" : String) ≠
      String.take "" 50 ++ (if String.length "" > 50 then "..." else "") := by
  constructor
  · decide
  · decide

/-- C10. Delete operations are idempotent and never report not-found:
deleteSession, deleteUpload and deleteSecret resolve with success even when
the entity is absent and when repeated, while updateSession and
updateUpload return null for an unknown id. -/
theorem delete_idempotent_update_not_found (st : Store)
    (sid ft fid name : String) (u : SessionUpdates) (p : UploadUpdates)
    (hs : getSession st sid = none) (hu : getUpload st sid fid = none)
    (hsec : getSecret st name = none) :
    (deleteSession st sid).2 = true ∧
    (deleteSession (deleteSession st sid).1 sid).2 = true ∧
    (deleteUpload st sid ft fid).2 = true ∧
    (deleteUpload (deleteUpload st sid ft fid).1 sid ft fid).2 = true ∧
    (deleteSecret st name).2 = true ∧
    (deleteSecret (deleteSecret st name).1 name).2 = true ∧
    updateSession st sid u = (st, none) ∧
    updateUpload st sid fid p = (st, none) := by
  refine ⟨rfl, rfl, rfl, rfl, rfl, rfl, ?_, ?_⟩
  · rw [updateSession, hs]
  · rw [updateUpload, hu]

theorem delete_idempotent_update_not_found_witness :
    (deleteSession emptyStore "z").2 = true ∧
    (deleteSession (deleteSession emptyStore "z").1 "z").2 = true ∧
    updateSession emptyStore "z" {} = (emptyStore, none) ∧
    updateUpload emptyStore "z" "f" {} = (emptyStore, none) := by
  have h := delete_idempotent_update_not_found emptyStore "z" "text" "f" "k" {} {}
    rfl rfl rfl
  exact ⟨h.1, h.2.1, h.2.2.2.2.2.2.1, h.2.2.2.2.2.2.2⟩

/-! ## Audio playback sequencer (ChatInterface.jsx lines 205-279, 370-382)

The sequencer's mutable refs become one state record; every suspension
point of the JS code (a decode resolving, a source.onended firing, the
deferred setTimeout of the done handler) becomes one event of a schedule.
Chunks are identified by their submission index so that the played order
can be compared with the submission order. -/

structure AudioState where
  /-- audioQueueRef.current: decoded buffers awaiting playback. -/
  queue : List Nat
  /-- pendingDecodesRef.current. -/
  pending : Nat
  /-- isPlayingRef.current. -/
  playing : Bool
  /-- whether onAudioFinishedRef.current is non-null. -/
  finishedCb : Bool
  /-- chunks handed to source.start so far, in order. -/
  played : List Nat
  /-- number of times the finished callback has been invoked. -/
  fired : Nat
deriving DecidableEq

def initAudioState : AudioState :=
  { queue := [], pending := 0, playing := false, finishedCb := false,
    played := [], fired := 0 }

/-- playNextInQueue (lines 254-279): do nothing while something is playing;
with an empty queue, invoke-and-clear the finished callback only when no
decode is pending; otherwise shift the front buffer and start playing it. -/
def playNextInQueue (s : AudioState) : AudioState :=
  if s.playing then s
  else
    match s.queue with
    | [] =>
      if s.pending = 0 ∧ s.finishedCb then
        { s with finishedCb := false, fired := s.fired + 1 }
      else s
    | i :: rest =>
      { s with playing := true, queue := rest, played := s.played ++ [i] }

/-- One scheduled event of the sequencer. -/
inductive AudioEvent
  /-- the synchronous prefix of playAudioChunk: pendingDecodesRef += 1. -/
  | submit (i : Nat)
  /-- decodeAudioData resolves for chunk i: push the buffer, then the
  finally block decrements the counter and calls playNextInQueue. -/
  | decodeOk (i : Nat)
  /-- decodeAudioData rejects: the chunk is logged and dropped, the finally
  block still decrements the counter and calls playNextInQueue. -/
  | decodeFail (i : Nat)
  /-- source.onended: clear isPlaying and call playNextInQueue. -/
  | ended
  /-- the done handler sets onAudioFinishedRef.current to a callback. -/
  | arm
  /-- the deferred setTimeout(() => playNextInQueue(), 100). -/
  | timer
deriving DecidableEq

def audioStep (s : AudioState) : AudioEvent → AudioState
  | .submit _ => { s with pending := s.pending + 1 }
  | .decodeOk i =>
    playNextInQueue { s with queue := s.queue ++ [i], pending := s.pending - 1 }
  | .decodeFail _ => playNextInQueue { s with pending := s.pending - 1 }
  | .ended => playNextInQueue { s with playing := false }
  | .arm => { s with finishedCb := true }
  | .timer => playNextInQueue s

def audioRun (s : AudioState) (evs : List AudioEvent) : AudioState :=
  evs.foldl audioStep s

/-- The chunks whose decode completed successfully, in completion order. -/
def decodeCompletions (evs : List AudioEvent) : List Nat :=
  evs.filterMap (fun e => match e with | .decodeOk i => some i | _ => none)

/-- C2 counterexample: two chunks submitted in order 1, 2; the decode of
chunk 2 completes before the decode of chunk 1; playback order is [2, 1],
not the submission order [1, 2], because playAudioChunk pushes a buffer to
the queue only when its decode completes and ignores the chunk index. -/
theorem audio_order_counterexample :
    (audioRun initAudioState
      [.submit 1, .submit 2, .decodeOk 2, .decodeOk 1, .ended, .ended]).played
      = [2, 1] ∧ [2, 1] ≠ [1, 2] := by
  constructor
  · rfl
  · decide

theorem playNextInQueue_played_queue (s : AudioState) :
    (playNextInQueue s).played ++ (playNextInQueue s).queue =
      s.played ++ s.queue := by
  by_cases hp : s.playing = true
  · simp [playNextInQueue, hp]
  · cases hq : s.queue with
    | nil =>
      by_cases hc : s.pending = 0 ∧ s.finishedCb = true
      · simp [playNextInQueue, hp, hq, hc]
      · simp [playNextInQueue, hp, hq, hc]
    | cons i rest => simp [playNextInQueue, hp, hq]

theorem audioRun_played_queue (evs : List AudioEvent) :
    ∀ s : AudioState,
      (audioRun s evs).played ++ (audioRun s evs).queue =
        s.played ++ s.queue ++ decodeCompletions evs := by
  induction evs with
  | nil => intro s; simp [audioRun, decodeCompletions]
  | cons e evs ih =>
    intro s
    have hstep : (audioRun s (e :: evs)) = audioRun (audioStep s e) evs := rfl
    rw [hstep, ih]
    cases e with
    | submit i => simp [audioStep, decodeCompletions]
    | decodeOk i =>
      simp [audioStep, decodeCompletions, playNextInQueue_played_queue,
        List.append_assoc]
    | decodeFail i =>
      simp [audioStep, decodeCompletions, playNextInQueue_played_queue]
    | ended =>
      simp [audioStep, decodeCompletions, playNextInQueue_played_queue]
    | arm => simp [audioStep, decodeCompletions]
    | timer =>
      simp [audioStep, decodeCompletions, playNextInQueue_played_queue]

/-- C2 (amended). Playback order equals decode-completion order, not
submission order: for every schedule of events starting from the idle
sequencer, the chunks played so far followed by the chunks still queued are
exactly the successful decode completions in completion order.  Submission
order is preserved only when decodes happen to complete in that order. -/
theorem audio_playback_follows_decode_completion (evs : List AudioEvent) :
    (audioRun initAudioState evs).played ++ (audioRun initAudioState evs).queue
      = decodeCompletions evs := by
  rw [audioRun_played_queue evs initAudioState]
  rfl

theorem audioStep_timer_noop (s : AudioState) (hq : s.queue = [])
    (hcb : s.finishedCb = false) : audioStep s .timer = s := by
  rw [audioStep, playNextInQueue]
  by_cases hp : s.playing = true
  · rw [if_pos hp]
  · rw [if_neg hp, hq]
    have : ¬ (s.pending = 0 ∧ s.finishedCb) := by
      rintro ⟨-, hc⟩; rw [hcb] at hc; exact absurd hc (by simp)
    rw [if_neg this]

theorem audioRun_timers_noop (k : Nat) (s : AudioState) (hq : s.queue = [])
    (hcb : s.finishedCb = false) :
    audioRun s (List.replicate k .timer) = s := by
  induction k with
  | zero => rfl
  | succ k ih =>
    have hstep : audioRun s (List.replicate (k + 1) .timer) =
        audioRun (audioStep s .timer) (List.replicate k .timer) := rfl
    rw [hstep, audioStep_timer_noop s hq hcb, ih]

/-- C3. Finished-callback exactly-once: if the done handler registers the
finished callback while the queue is empty, nothing is decoding and nothing
is playing, then the deferred playNextInQueue retry invokes the callback
exactly once, and any number of further retries never invoke it again (the
callback slot is cleared to null before the callback runs). -/
theorem finished_callback_exactly_once (s : AudioState) (k : Nat)
    (hq : s.queue = []) (hp : s.pending = 0) (hpl : s.playing = false)
    (hcb : s.finishedCb = false) :
    (audioRun s (.arm :: .timer :: List.replicate k .timer)).fired =
      s.fired + 1 := by
  have harm : audioStep s .arm = { s with finishedCb := true } := rfl
  have htimer : audioStep { s with finishedCb := true } .timer =
      { s with finishedCb := false, fired := s.fired + 1 } := by
    rw [audioStep, playNextInQueue]
    have hpl' : ¬ ({ s with finishedCb := true } : AudioState).playing = true := by
      simp [hpl]
    rw [if_neg hpl']
    have hq' : ({ s with finishedCb := true } : AudioState).queue = [] := hq
    rw [hq']
    have hc : ({ s with finishedCb := true } : AudioState).pending = 0 ∧
        ({ s with finishedCb := true } : AudioState).finishedCb := ⟨hp, rfl⟩
    rw [if_pos hc]
  have hrun : audioRun s (.arm :: .timer :: List.replicate k .timer) =
      audioRun { s with finishedCb := false, fired := s.fired + 1 }
        (List.replicate k .timer) := by
    show audioRun (audioStep (audioStep s .arm) .timer) (List.replicate k .timer) = _
    rw [harm, htimer]
  rw [hrun,
    audioRun_timers_noop k { s with finishedCb := false, fired := s.fired + 1 } hq rfl]

theorem finished_callback_exactly_once_witness :
    (audioRun initAudioState
      [.arm, .timer, .timer, .timer]).fired = initAudioState.fired + 1 := by
  have h := finished_callback_exactly_once initAudioState 2 rfl rfl rfl rfl
  simpa using h

/-! ## Embeddings-cache optimization (api.js lines 194-253)

sendMessage consults the module-level cachedSessions set to decide whether
to include the session's embeddings in the outgoing request:

    const needsFullData = !cachedSessions.has(sessionId);
    // multipart branch (file attached):
    formData.append('embeddings', needsFullData
        ? JSON.stringify(preprocessed?.embeddings || {}) : '{}');
    // JSON branch (no file): the key is added only when needed:
    if (needsFullData) { payload.embeddings = preprocessed?.embeddings || {}; }
    ...
    if (!response.ok) throw new Error('Failed to send message');
    cachedSessions.add(sessionId);
-/

/-- How the embeddings field of one outgoing chat request is encoded. -/
inductive EmbField
  /-- the full embeddings object is transmitted. -/
  | full (e : Obj)
  /-- the multipart branch appends the literal placeholder string `{}`. -/
  | placeholder
  /-- the JSON branch omits the embeddings key entirely. -/
  | absent
deriving DecidableEq

/-- One sendMessage call, restricted to the state it reads and writes for
the caching optimization: the embeddings field put on the wire, and either
the new cachedSessions set (response.ok) or the thrown error (response not
ok, in which case cachedSessions is left unchanged). -/
def sendMessageStep (cachedSessions : List String) (sessionId : String)
    (preEmbeddings : Option Obj) (hasFile ok : Bool) :
    EmbField × Except String (List String) :=
  let needsFullData := !(cachedSessions.contains sessionId)
  let emb :=
    if hasFile then
      if needsFullData then EmbField.full (preEmbeddings.getD []) else EmbField.placeholder
    else
      if needsFullData then EmbField.full (preEmbeddings.getD []) else EmbField.absent
  if ok then (emb, Except.ok (sessionId :: cachedSessions))
  else (emb, Except.error "Failed to send message")

/-- C4 counterexample: two consecutive successful JSON (no attached file)
sendMessage calls on a fresh session.  The first request carries the full
non-empty embeddings payload, but the second request does not contain the
empty placeholder — the embeddings key is omitted entirely (only the
multipart branch sends the '{}' placeholder). -/
theorem embeddings_cache_counterexample :
    (sendMessageStep [] "s" (some [("v", "1")]) false true).1 =
      EmbField.full [("v", "1")] ∧
    (sendMessageStep [] "s" (some [("v", "1")]) false true).2 =
      Except.ok ["s"] ∧
    (sendMessageStep ["s"] "s" (some [("v", "1")]) false true).1 =
      EmbField.absent ∧
    EmbField.absent ≠ EmbField.placeholder := by
  refine ⟨rfl, rfl, ?_, by decide⟩
  rfl

/-- C4 (amended). For two consecutive successful sendMessage calls on a
fresh session: the first request carries the session's full embeddings
payload; the second carries the empty placeholder when the request is
multipart (file attached) and omits the embeddings field when it is JSON;
the session is added to cachedSessions only after a request succeeds — a
failed request leaves the set unchanged. -/
theorem embeddings_cache_amended (cachedSessions : List String)
    (sessionId : String) (emb : Obj) (hasFile : Bool)
    (hfresh : cachedSessions.contains sessionId = false) :
    (sendMessageStep cachedSessions sessionId (some emb) hasFile true).1 =
      EmbField.full emb ∧
    (sendMessageStep cachedSessions sessionId (some emb) hasFile true).2 =
      Except.ok (sessionId :: cachedSessions) ∧
    (sendMessageStep cachedSessions sessionId (some emb) hasFile false).2 =
      Except.error "Failed to send message" ∧
    (sendMessageStep (sessionId :: cachedSessions) sessionId (some emb) true true).1 =
      EmbField.placeholder ∧
    (sendMessageStep (sessionId :: cachedSessions) sessionId (some emb) false true).1 =
      EmbField.absent := by
  have hmem : ((sessionId :: cachedSessions).contains sessionId) = true := by
    simp [List.contains_cons]
  have hnotmem : sessionId ∉ cachedSessions := by simpa using hfresh
  refine ⟨?_, ?_, ?_, ?_, ?_⟩
  · cases hasFile <;> simp [sendMessageStep, hfresh, hnotmem]
  · cases hasFile <;> simp [sendMessageStep, hfresh, hnotmem]
  · cases hasFile <;> simp [sendMessageStep, hfresh, hnotmem]
  · simp [sendMessageStep, hmem]
  · simp [sendMessageStep, hmem]

theorem embeddings_cache_amended_witness :
    (sendMessageStep [] "s" (some [("v", "1")]) false true).1 =
      EmbField.full [("v", "1")] ∧
    (sendMessageStep ["s"] "s" (some [("v", "1")]) true true).1 =
      EmbField.placeholder := by
  have h := embeddings_cache_amended [] "s" [("v", "1")] false (by decide)
  exact ⟨h.1, h.2.2.2.1⟩

/-! ## refreshAIMemory error containment (api.js lines 392-492)

The whole body of refreshAIMemory is wrapped in one try/catch whose catch
clause is `if (onError) onError(error.message)`.  Every awaited operation
that can reject (the five storage reads, the fetch, each reader.read(),
the savePreprocessed and updateSession calls inside the complete handler)
becomes an Except-valued field of an environment; a JS exception is the
error case propagating into a catch.  There are two catches: the per-line
try/catch (lines 456-484) encloses the JSON.parse and the whole dispatch
of one record, including the two persistence awaits of the complete
handler, so a rejection raised there is logged with console.warn and the
loop continues with the next line — no onError, no abort.  Only failures
raised outside that inner try (the storage reads, the fetch, a non-ok
response, a reader.read() rejection) propagate to the function-level
catch.  The function's observable behaviour is the ordered list of
callback invocations. -/

/-- A parsed memory-refresh record: the fields the handler looks at. -/
structure RefreshData where
  step : String
  message : String
  preprocessed : Option Obj
  subject : Option String
  voice_id : Option String
deriving DecidableEq

/-- One observable callback invocation of refreshAIMemory. -/
inductive RefreshCallback
  | progress (d : RefreshData)
  | complete (d : RefreshData)
  /-- an onError invocation, carrying the message. -/
  | err (msg : String)
deriving DecidableEq

/-- The outcomes of every suspension point of one refreshAIMemory run. -/
structure RefreshEnv where
  /-- Storage.getUploads(sessionId, 'text'). -/
  uploadsR : Except String Unit
  /-- Storage.getUploads(sessionId, 'voice'). -/
  voiceUploadsR : Except String Unit
  /-- Storage.getGeminiKey(). -/
  geminiKeyR : Except String Unit
  /-- Storage.getWaveSpeedKey(). -/
  waveSpeedKeyR : Except String Unit
  /-- Storage.getSettings(). -/
  settingsR : Except String Unit
  /-- fetch('/api/process'): a transport failure, or response.ok. -/
  fetchR : Except String Bool
  /-- successive reader.read() results; the end of the list is done. -/
  reads : List (Except String (List Char))
  /-- Storage.savePreprocessed inside the complete handler. -/
  saveR : Except String Unit
  /-- Storage.updateSession inside the complete handler. -/
  updateR : Except String Unit
  /-- JSON.parse of a stripped data: line (none when it throws). -/
  parse : List Char → Option RefreshData
  /-- whether the caller supplied onProgress. -/
  hasProgress : Bool
  /-- whether the caller supplied onComplete. -/
  hasComplete : Bool
  /-- whether the caller supplied onError. -/
  hasError : Bool

/-- The dispatch for one parsed record (lines 459-481), as seen from
outside the per-line try/catch: the complete step persists the artifact
and the session updates before invoking onComplete, and a rejection of
either await is caught by the enclosing per-line catch — it is logged,
the record's remaining work (including onComplete) is abandoned, and no
callback is invoked for it; an error step goes to onError when supplied,
and any other record — including an error step without onError — goes to
onProgress when supplied.  The result is the list of callbacks invoked
for this record; the per-line handling never throws further out. -/
def handleRefreshData (env : RefreshEnv) (d : RefreshData) :
    List RefreshCallback :=
  if d.step = "complete" then
    match (if d.preprocessed.isSome then env.saveR else Except.ok ()) with
    | .error _ => []
    | .ok _ =>
      match (if d.subject.isSome || d.voice_id.isSome then env.updateR else Except.ok ()) with
      | .error _ => []
      | .ok _ => if env.hasComplete then [.complete d] else []
  else if d.step = "error" ∧ env.hasError then [.err d.message]
  else if env.hasProgress then [.progress d]
  else []

/-- The `for (const line of lines)` loop over the complete lines of one
chunk.  Every line's processing is wrapped in the per-line try/catch, so
the loop always reaches the end of the lines. -/
def processRefreshLines (env : RefreshEnv) :
    List (List Char) → List RefreshCallback
  | [] => []
  | line :: rest =>
    match processLine env.parse line with
    | none => processRefreshLines env rest
    | some d => handleRefreshData env d ++ processRefreshLines env rest

/-- The `while (true)` read loop (lines 445-487): a rejected read throws
to the function-level catch; a completed transport drops whatever is left
in the buffer. -/
def refreshStreamLoop (env : RefreshEnv) (buf : List Char) :
    List (Except String (List Char)) → List RefreshCallback × Except String Unit
  | [] => ([], Except.ok ())
  | r :: rs =>
    match r with
    | .error e => ([], .error e)
    | .ok chunk =>
      let sp := splitComplete (buf ++ chunk)
      let cbs := processRefreshLines env sp.1
      let t := refreshStreamLoop env sp.2 rs
      (cbs ++ t.1, t.2)

/-- The try block of refreshAIMemory: gather the inputs (any read may
throw), fetch (a throw, or a non-ok response which throws
'Failed to start processing'), then run the read loop. -/
def refreshBody (env : RefreshEnv) : List RefreshCallback × Except String Unit :=
  match env.uploadsR with
  | .error e => ([], .error e)
  | .ok _ =>
  match env.voiceUploadsR with
  | .error e => ([], .error e)
  | .ok _ =>
  match env.geminiKeyR with
  | .error e => ([], .error e)
  | .ok _ =>
  match env.waveSpeedKeyR with
  | .error e => ([], .error e)
  | .ok _ =>
  match env.settingsR with
  | .error e => ([], .error e)
  | .ok _ =>
  match env.fetchR with
  | .error e => ([], .error e)
  | .ok ok =>
    if ok then refreshStreamLoop env [] env.reads
    else ([], .error "Failed to start processing")

/-- refreshAIMemory: the try/catch wrapper.  The codomain is a plain list
of callback invocations — the function always resolves; a throw from the
body is converted by the catch clause into one final onError invocation
(when onError was supplied). -/
def refreshAIMemory (env : RefreshEnv) : List RefreshCallback :=
  match (refreshBody env).2 with
  | .ok _ => (refreshBody env).1
  | .error e =>
    if env.hasError then (refreshBody env).1 ++ [RefreshCallback.err e]
    else (refreshBody env).1

/-- C6. refreshAIMemory never throws past its own boundary: it always
resolves with a list of callback invocations, and when onError is supplied
every failure that reaches the function-level catch — a rejected storage
read while gathering inputs, a transport failure of the fetch, a non-2xx
response, a rejected stream read — is reported by one final onError
invocation carrying the failure's message, appended to the callbacks
already delivered.  A rejection of savePreprocessed or updateSession
inside the complete handler never reaches that catch: the per-line
try/catch logs it and the loop continues, invoking no callback for that
record. -/
theorem refreshAIMemory_error_containment (env : RefreshEnv)
    (hcb : env.hasError = true) :
    (∀ e, (refreshBody env).2 = Except.error e →
      refreshAIMemory env = (refreshBody env).1 ++ [RefreshCallback.err e]) ∧
    ((refreshBody env).2 = Except.ok () →
      refreshAIMemory env = (refreshBody env).1) ∧
    (∀ msg, env.uploadsR = Except.ok () → env.voiceUploadsR = Except.ok () →
      env.geminiKeyR = Except.ok () → env.waveSpeedKeyR = Except.ok () →
      env.settingsR = Except.ok () → env.fetchR = Except.error msg →
      refreshAIMemory env = [RefreshCallback.err msg]) ∧
    (env.uploadsR = Except.ok () → env.voiceUploadsR = Except.ok () →
      env.geminiKeyR = Except.ok () → env.waveSpeedKeyR = Except.ok () →
      env.settingsR = Except.ok () → env.fetchR = Except.ok false →
      refreshAIMemory env = [RefreshCallback.err "Failed to start processing"]) ∧
    (∀ d msg, d.step = "complete" → d.preprocessed.isSome = true →
      env.saveR = Except.error msg → handleRefreshData env d = []) ∧
    (∀ d msg, d.step = "complete" → d.preprocessed = none →
      d.subject.isSome = true → env.updateR = Except.error msg →
      handleRefreshData env d = []) := by
  refine ⟨?_, ?_, ?_, ?_, ?_, ?_⟩
  · intro e he
    rw [refreshAIMemory, he]
    simp [hcb]
  · intro he
    rw [refreshAIMemory, he]
  · intro msg h1 h2 h3 h4 h5 h6
    have hb : refreshBody env = ([], Except.error msg) := by
      rw [refreshBody, h1, h2, h3, h4, h5, h6]
    rw [refreshAIMemory, hb]
    simp [hcb]
  · intro h1 h2 h3 h4 h5 h6
    have hb : refreshBody env = ([], Except.error "Failed to start processing") := by
      rw [refreshBody, h1, h2, h3, h4, h5, h6]
      rfl
    rw [refreshAIMemory, hb]
    simp [hcb]
  · intro d msg h1 h2 h3
    simp [handleRefreshData, h1, h2, h3]
  · intro d msg h1 h2 h3 h4
    simp [handleRefreshData, h1, h2, h3, h4]

/-- Environment used to witness the error-containment theorem: every input
gathered, the backend answers with a non-ok response. -/
def refreshEnvWit : RefreshEnv :=
  { uploadsR := Except.ok (), voiceUploadsR := Except.ok (),
    geminiKeyR := Except.ok (), waveSpeedKeyR := Except.ok (),
    settingsR := Except.ok (), fetchR := Except.ok false, reads := [],
    saveR := Except.ok (), updateR := Except.ok (),
    parse := fun _ => none, hasProgress := true, hasComplete := true,
    hasError := true }

theorem refreshAIMemory_error_containment_witness :
    refreshAIMemory refreshEnvWit =
      [RefreshCallback.err "Failed to start processing"] :=
  (refreshAIMemory_error_containment refreshEnvWit rfl).2.2.2.1
    rfl rfl rfl rfl rfl rfl

end Nulltale
